import Mathlib

/-!
Shallow embedding of the cipher-scanning pipeline of
`get_domain_ciphers.py` and of the wildcard normalization of
`subdomain_enumeration.py`, together with proofs settling the frozen
claims about the natural-language specification of the repository.

The SQLite database is embedded as an explicit `Store` value holding the
four tables as lists of rows, with explicit counters for the
autoincrementing surrogate keys.  The external `sslscan` subprocess is
embedded as an oracle field of an `Env` value.  Python control flow that
can raise is embedded with an explicit result type distinguishing an
ordinary `Exception` (caught by `except Exception`) from `SystemExit`
(raised by `sys.exit`, which is *not* an `Exception` subclass and
escapes `except Exception`).  The thread pool of `process_domains` is
modelled as sequential processing of the hosts in submission order; the
properties proved below concern per-host outcomes, row sets and totals,
not interleavings.
-/

/-- A cipher record as produced by `extract_accepted_ciphers`
(the Python dict with keys sslversion, cipher_name, bits, cipher_id,
status). -/
structure CipherRecord where
  sslversion : String
  cipher_name : String
  bits : String
  cipher_id : String
  status : String
deriving DecidableEq

/-- A row of the `ciphers` table (`cipher_id` is the PRIMARY KEY;
the `created_at` timestamp column is not observed by any claim and is
omitted). -/
structure CipherRow where
  cipher_id : String
  sslversion : String
  cipher_name : String
  bits : String
  status : String
deriving DecidableEq

/-- A row of the `tlds` table of `subdomain_enumeration.py`
(columns not observed by the scanning pipeline are omitted).
`skip_existing` is an SQLite INTEGER. -/
structure TldRow where
  id : Nat
  name : String
  skip_existing : Nat
deriving DecidableEq

/-- A row of the `domain_names` table.  `tld_id` is a nullable foreign
key into `tlds`, embedded as an `Option`. -/
structure DomainRow where
  id : Nat
  tld_id : Option Nat
  name_value : String
deriving DecidableEq

/-- A row of the `domain_ciphers` table.  Note that the schema in
`setup_database` declares only the autoincrementing PRIMARY KEY `id`
and two foreign keys: there is NO unique constraint on the pair
(`domain_id`, `cipher_id`). -/
structure DomainCipherRow where
  id : Nat
  domain_id : Nat
  cipher_id : String
deriving DecidableEq

/-- The SQLite database `domains.db`: the four tables, plus the next
value of each autoincrementing surrogate key. -/
structure Store where
  tlds : List TldRow
  domain_names : List DomainRow
  ciphers : List CipherRow
  domain_ciphers : List DomainCipherRow
  next_domain_id : Nat
  next_dc_id : Nat
deriving DecidableEq

/-- The attribute map of one XML element, as an association list
(first binding wins, as in a map). -/
abbrev Attrs := List (String × String)

/-- `attrib.get(k)` — `none` when the attribute is absent. -/
def attrGet (a : Attrs) (k : String) : Option String :=
  (a.find? (fun p => p.1 = k)).map Prod.snd

/-- `attrib.get(k, d)` — the default `d` when the attribute is absent. -/
def attrGetD (a : Attrs) (k : String) (d : String) : String :=
  (attrGet a k).getD d

/-- A parsed XML report: the attribute maps of all `<cipher>` descendant
elements found by `root.findall(".//cipher")`, in document order. -/
structure Report where
  cipherElems : List Attrs
deriving DecidableEq

/-- A piece of XML text: either it parses (`ET.fromstring` succeeds and
the cipher elements are as recorded) or it is malformed
(`ET.fromstring` raises `ParseError`). -/
inductive XmlDoc where
  | wellFormed (r : Report)
  | malformed
deriving DecidableEq

/-- Outcome of running the `sslscan` subprocess for one host: either it
exits 0 with some XML text on stdout, or it exits non-zero
(`subprocess.CalledProcessError` under `check=True`). -/
inductive ScanOut where
  | output (doc : XmlDoc)
  | failed
deriving DecidableEq

/-- Result of a Python computation: a normal return, an ordinary
`Exception` (caught by `except Exception`), or `SystemExit` with an
exit code (raised by `sys.exit`; `SystemExit` derives from
`BaseException`, not `Exception`, so `except Exception` does not catch
it). -/
inductive PyResult (α : Type) where
  | ok (a : α)
  | exn
  | exit (code : Nat)
deriving DecidableEq

/-- The execution environment: whether `shutil.which("sslscan")` finds
the scanner, and the oracle giving the subprocess outcome for each
`host:port` target. -/
structure Env where
  sslscanInstalled : Bool
  scan : String → Nat → ScanOut

/-- `run_sslscan_xml(host, port=443)`: exit 1 when sslscan is not in
PATH; otherwise run the subprocess, returning its stdout on success and
exit 1 on a non-zero subprocess exit.  The second component counts how
many times the external scanner subprocess was actually invoked. -/
def run_sslscan_xml (env : Env) (host : String) (port : Nat := 443) :
    PyResult XmlDoc × Nat :=
  if env.sslscanInstalled then
    match env.scan host port with
    | .output doc => (.ok doc, 1)
    | .failed => (.exit 1, 1)
  else (.exit 1, 0)

/-- The body of the loop of `extract_accepted_ciphers` for one
`<cipher>` element: emit a record exactly when the `status` attribute
is present and equal to `accepted` or `preferred`, defaulting each of
the other four attributes to the empty string when absent. -/
def toAcceptedRecord (a : Attrs) : Option CipherRecord :=
  match attrGet a "status" with
  | some status =>
    if status = "accepted" ∨ status = "preferred" then
      some { sslversion := attrGetD a "sslversion" ""
             cipher_name := attrGetD a "cipher" ""
             bits := attrGetD a "bits" ""
             cipher_id := attrGetD a "id" ""
             status := status }
    else none
  | none => none

/-- `extract_accepted_ciphers(xml_data)`: `ET.fromstring` raises
(an ordinary exception) on malformed input; on well-formed input the
loop over `root.findall(".//cipher")` keeps exactly the accepted or
preferred entries. -/
def extract_accepted_ciphers (doc : XmlDoc) : PyResult (List CipherRecord) :=
  match doc with
  | .wellFormed r => .ok (r.cipherElems.filterMap toAcceptedRecord)
  | .malformed => .exn

/-- One iteration of `insert_ciphers_to_db`:
`INSERT OR IGNORE INTO ciphers ...` with `cipher_id` the PRIMARY KEY,
so the insert is suppressed exactly when a row with the same
`cipher_id` already exists. -/
def insertCipherRow (s : Store) (c : CipherRecord) : Store :=
  if s.ciphers.any (fun row => row.cipher_id = c.cipher_id) then s
  else { s with ciphers := s.ciphers ++
          [{ cipher_id := c.cipher_id, sslversion := c.sslversion,
             cipher_name := c.cipher_name, bits := c.bits,
             status := c.status }] }

/-- `insert_ciphers_to_db(ciphers, conn)`. -/
def insert_ciphers_to_db (ciphers : List CipherRecord) (s : Store) : Store :=
  ciphers.foldl insertCipherRow s

/-- One iteration of the loop of `map_domain_to_ciphers`:
`INSERT OR IGNORE INTO domain_ciphers (domain_id, cipher_id)`.
The `domain_ciphers` table has no unique constraint on
(`domain_id`, `cipher_id`) — its only constraints are the
autoincrementing PRIMARY KEY (always fresh here) and two foreign keys
(not enforced by SQLite by default, and satisfied anyway) — so in
SQLite the `OR IGNORE` clause never suppresses this insert: a new row
is appended unconditionally. -/
def insertDomainCipher (domain_id : Nat) (s : Store) (c : CipherRecord) : Store :=
  let row : DomainCipherRow :=
    { id := s.next_dc_id, domain_id := domain_id, cipher_id := c.cipher_id }
  { s with domain_ciphers := s.domain_ciphers ++ [row]
           next_dc_id := s.next_dc_id + 1 }

/-- `map_domain_to_ciphers(host, ciphers, conn)`: look the host up in
`domain_names`; when absent, `INSERT INTO domain_names (name_value)`
creates it (with every other column at its default, in particular
`tld_id` NULL) and `lastrowid` yields the fresh surrogate id; then
insert one `domain_ciphers` row per record. -/
def map_domain_to_ciphers (host : String) (ciphers : List CipherRecord)
    (s : Store) : Store :=
  match s.domain_names.find? (fun d => decide (d.name_value = host)) with
  | some d => ciphers.foldl (insertDomainCipher d.id) s
  | none =>
    let row : DomainRow :=
      { id := s.next_domain_id, tld_id := none, name_value := host }
    let s1 : Store :=
      { s with domain_names := s.domain_names ++ [row]
               next_domain_id := s.next_domain_id + 1 }
    ciphers.foldl (insertDomainCipher s.next_domain_id) s1

/-- The skip query of `process_domain`:
`SELECT count(1) FROM domain_ciphers dc
 LEFT JOIN domain_names dn ON dc.domain_id = dn.id
 LEFT JOIN tlds t ON dn.tld_id = t.id
 WHERE dn.name_value = ? AND t.skip_existing = 1`.
The WHERE clause rejects the NULL-padded rows a LEFT JOIN produces for
unmatched `dc` or `dn`, so the count is the number of (dc, dn, t)
triples satisfying both join conditions and the WHERE conditions. -/
def skipQueryCount (s : Store) (host : String) : Nat :=
  List.countP
    (fun x =>
      decide (x.1.1.domain_id = x.1.2.id ∧ x.1.2.name_value = host ∧
        x.1.2.tld_id = some x.2.id ∧ x.2.skip_existing = 1))
    ((s.domain_ciphers.product s.domain_names).product s.tlds)

/-- The observable result of one host's `process_domain` call: the
Python-level outcome, the final database state, and how many times the
external scanner subprocess was invoked. -/
structure UnitResult where
  outcome : PyResult Unit
  store : Store
  scans : Nat
deriving DecidableEq

/-- `process_domain(conn, host, port=443)`: skip when the count query
is positive; otherwise scan, parse, and, unless the accepted-cipher
list is empty, persist. -/
def process_domain (env : Env) (s : Store) (host : String)
    (port : Nat := 443) : UnitResult :=
  if 0 < skipQueryCount s host then
    { outcome := .ok (), store := s, scans := 0 }
  else
    match run_sslscan_xml env host port with
    | (.ok doc, n) =>
      match extract_accepted_ciphers doc with
      | .ok ciphers =>
        if ciphers.isEmpty then
          { outcome := .ok (), store := s, scans := n }
        else
          { outcome := .ok (),
            store := map_domain_to_ciphers host ciphers
              (insert_ciphers_to_db ciphers s),
            scans := n }
      | .exn => { outcome := .exn, store := s, scans := n }
      | .exit c => { outcome := .exit c, store := s, scans := n }
    | (.exn, n) => { outcome := .exn, store := s, scans := n }
    | (.exit c, n) => { outcome := .exit c, store := s, scans := n }

/-- Result of `process_domain_wrapper`: either the `(host, success)`
pair it returns — `except Exception` turns an ordinary exception into
`(host, False)` — or a propagating `SystemExit`, which `except
Exception` does not catch. -/
inductive WrapperOut where
  | result (host : String) (success : Bool) (store : Store) (scans : Nat)
  | sysExit (code : Nat) (store : Store) (scans : Nat)
deriving DecidableEq

/-- `process_domain_wrapper(host, port=443)` of `process_domains`. -/
def process_domain_wrapper (env : Env) (s : Store) (host : String) :
    WrapperOut :=
  match process_domain env s host 443 with
  | { outcome := .ok _, store := s2, scans := n } => .result host true s2 n
  | { outcome := .exn, store := s2, scans := n } => .result host false s2 n
  | { outcome := .exit c, store := s2, scans := n } => .sysExit c s2 n

/-- The observable result of a whole `process_domains` run: the process
exit code (0 for a normal completion), the final database state, the
total number of scanner subprocess invocations, and the per-host
`(host, success)` outcomes collected by the main loop before any
abort. -/
structure RunResult where
  exitCode : Nat
  store : Store
  scans : Nat
  outcomes : List (String × Bool)
deriving DecidableEq

/-- The main loop of `process_domains`, processing the hosts in
submission order.  A `SystemExit` escaping a host's wrapper is
re-raised by `future.result()` in the main thread and terminates the
process with that exit code; the remaining outcomes are never
collected. -/
def process_domains_loop (env : Env) : Store → List String → RunResult
  | s, [] => { exitCode := 0, store := s, scans := 0, outcomes := [] }
  | s, host :: rest =>
    match process_domain_wrapper env s host with
    | .result h ok s2 n =>
      let r := process_domains_loop env s2 rest
      { exitCode := r.exitCode, store := r.store, scans := n + r.scans,
        outcomes := (h, ok) :: r.outcomes }
    | .sysExit c s2 n =>
      { exitCode := c, store := s2, scans := n, outcomes := [] }

/-- `process_domains()`: load every `name_value` from `domain_names`
and process each host. -/
def process_domains (env : Env) (s : Store) : RunResult :=
  process_domains_loop env s (s.domain_names.map (fun d => d.name_value))

/-- The wildcard normalization of `process_tlds` in
`subdomain_enumeration.py` (line 131):
`"WILDCARD" + domain[1:] if domain.startswith('*') else domain`.
Python's `startswith('*')` with a one-character argument is exactly the
test that the first character of the string is `*`, embedded here as a
head check on the character list of the string. -/
def normalize_crtsh_domain (domain : String) : String :=
  if domain.data.head? = some '*' then "WILDCARD" ++ domain.drop 1 else domain

/-- Spec-side description of the parser output (§4.2 / §8 of the spec):
the `accepted` ∪ `preferred` subset of the report's cipher entries, in
order, each record carrying the entry's attributes with absent ones
defaulted to the empty string. -/
def specAcceptedSubset (r : Report) : List CipherRecord :=
  (r.cipherElems.filter (fun a =>
      decide (attrGet a "status" = some "accepted" ∨
        attrGet a "status" = some "preferred"))).map
    (fun a =>
      { sslversion := attrGetD a "sslversion" ""
        cipher_name := attrGetD a "cipher" ""
        bits := attrGetD a "bits" ""
        cipher_id := attrGetD a "id" ""
        status := (attrGet a "status").getD "" })

/-- The claim-side reading of "the store contains at least one
(host, cipher) association row for this host". -/
def hasAssociation (s : Store) (host : String) : Prop :=
  ∃ dc ∈ s.domain_ciphers, ∃ dn ∈ s.domain_names,
    dn.name_value = host ∧ dc.domain_id = dn.id

/-- The claim-side reading of "the host's parent TLD row has its
`skip_existing` flag set". -/
def tldSkipSet (s : Store) (host : String) : Prop :=
  ∃ dn ∈ s.domain_names, dn.name_value = host ∧
    ∃ t ∈ s.tlds, dn.tld_id = some t.id ∧ t.skip_existing = 1

/-- Well-formedness from the schema: `name_value` is declared UNIQUE in
`domain_names`, so two rows with the same name are the same row. -/
def hostRowsUnique (s : Store) : Prop :=
  ∀ d1 ∈ s.domain_names, ∀ d2 ∈ s.domain_names,
    d1.name_value = d2.name_value → d1 = d2

/-- The `ciphers` rows carrying a given `cipher_id`. -/
def cipherRowsWithId (s : Store) (cid : String) : List CipherRow :=
  s.ciphers.filter (fun row => decide (row.cipher_id = cid))

/-- The `domain_ciphers` rows associating a given host with a given
cipher id. -/
def associationRows (s : Store) (host : String) (cid : String) :
    List DomainCipherRow :=
  s.domain_ciphers.filter (fun dc =>
    decide (dc.cipher_id = cid ∧ ∃ dn ∈ s.domain_names,
      dn.id = dc.domain_id ∧ dn.name_value = host))

lemma filterMap_toAcceptedRecord (l : List Attrs) :
    l.filterMap toAcceptedRecord =
      (l.filter (fun a =>
          decide (attrGet a "status" = some "accepted" ∨
            attrGet a "status" = some "preferred"))).map
        (fun a =>
          { sslversion := attrGetD a "sslversion" ""
            cipher_name := attrGetD a "cipher" ""
            bits := attrGetD a "bits" ""
            cipher_id := attrGetD a "id" ""
            status := (attrGet a "status").getD "" }) := by
  induction l with
  | nil => rfl
  | cons a l ih =>
    rw [List.filterMap_cons, List.filter_cons]
    cases hst : attrGet a "status" with
    | none => simp [toAcceptedRecord, hst, ih]
    | some st =>
      by_cases hacc : st = "accepted" ∨ st = "preferred"
      · simp [toAcceptedRecord, hst, hacc, ih]
      · have : ¬(some st = some "accepted" ∨ some st = some "preferred") := by
          simpa using hacc
        simp [toAcceptedRecord, hst, hacc, this, ih]

/-- Claim C4: for every well-formed report, the parser's output is
exactly the cipher entries whose status is `accepted` or `preferred`,
with sslversion, cipher name, bits and id preserved; entries with any
other status are absent. -/
theorem c4_status_filter_exact (r : Report) :
    extract_accepted_ciphers (XmlDoc.wellFormed r) =
      .ok (specAcceptedSubset r) := by
  simp [extract_accepted_ciphers, specAcceptedSubset,
    filterMap_toAcceptedRecord]

/-- Claim C8: every entry the parser emits tolerates absent
sslversion / cipher / id / bits attributes, defaulting the
corresponding output field to the empty string; a partial record is
still emitted, it does not fail the parse. -/
theorem c8_missing_attrs_default_empty (a : Attrs) (st : String)
    (hst : attrGet a "status" = some st)
    (hacc : st = "accepted" ∨ st = "preferred") :
    (toAcceptedRecord a).isSome = true ∧
    extract_accepted_ciphers (XmlDoc.wellFormed ⟨[a]⟩) =
      .ok (toAcceptedRecord a).toList ∧
    (attrGet a "sslversion" = none →
      Option.map CipherRecord.sslversion (toAcceptedRecord a) = some "") ∧
    (attrGet a "cipher" = none →
      Option.map CipherRecord.cipher_name (toAcceptedRecord a) = some "") ∧
    (attrGet a "id" = none →
      Option.map CipherRecord.cipher_id (toAcceptedRecord a) = some "") ∧
    (attrGet a "bits" = none →
      Option.map CipherRecord.bits (toAcceptedRecord a) = some "") := by
  have hrec : toAcceptedRecord a =
      some { sslversion := attrGetD a "sslversion" ""
             cipher_name := attrGetD a "cipher" ""
             bits := attrGetD a "bits" ""
             cipher_id := attrGetD a "id" ""
             status := st } := by
    simp [toAcceptedRecord, hst, hacc]
  refine ⟨by simp [hrec], ?_, ?_, ?_, ?_, ?_⟩
  · simp [extract_accepted_ciphers, List.filterMap, hrec]
  · intro h; simp [hrec, attrGetD, h]
  · intro h; simp [hrec, attrGetD, h]
  · intro h; simp [hrec, attrGetD, h]
  · intro h; simp [hrec, attrGetD, h]

/-- Witness for C8 at a record carrying only a status attribute. -/
theorem c8_missing_attrs_default_empty_witness :
    Option.map CipherRecord.sslversion
      (toAcceptedRecord [("status", "preferred")]) = some "" ∧
    Option.map CipherRecord.cipher_name
      (toAcceptedRecord [("status", "preferred")]) = some "" ∧
    Option.map CipherRecord.cipher_id
      (toAcceptedRecord [("status", "preferred")]) = some "" ∧
    Option.map CipherRecord.bits
      (toAcceptedRecord [("status", "preferred")]) = some "" ∧
    (toAcceptedRecord [("status", "preferred")]).isSome = true := by
  have h := c8_missing_attrs_default_empty [("status", "preferred")]
    "preferred" (by decide) (Or.inr rfl)
  exact ⟨h.2.2.1 (by decide), h.2.2.2.1 (by decide), h.2.2.2.2.1 (by decide),
    h.2.2.2.2.2 (by decide), h.1⟩

/-- Claim C9: a crt.sh hostname beginning with `*` is stored with the
leading `*` replaced by the literal sentinel `WILDCARD`, and the stored
name never begins with a bare `*`. -/
theorem c9_wildcard_normalization (d : String)
    (h : d.data.head? = some '*') :
    normalize_crtsh_domain d = "WILDCARD" ++ d.drop 1 ∧
    (normalize_crtsh_domain d).data.head? ≠ some '*' := by
  have h1 : normalize_crtsh_domain d = "WILDCARD" ++ d.drop 1 := by
    simp [normalize_crtsh_domain, h]
  refine ⟨h1, ?_⟩
  rw [h1, String.data_append]
  have hW : ("WILDCARD" : String).data = ['W','I','L','D','C','A','R','D'] := rfl
  rw [hW]; simp

/-- Witness for C9: `*.example.com` becomes `WILDCARD.example.com`. -/
theorem c9_wildcard_normalization_witness :
    normalize_crtsh_domain "*.example.com" = "WILDCARD.example.com" ∧
    normalize_crtsh_domain "*.example.com" = "WILDCARD" ++ ".example.com" := by
  have h := c9_wildcard_normalization "*.example.com" (by decide)
  constructor
  · rw [h.1, String.drop_eq]; decide
  · rw [h.1, String.drop_eq]; decide

lemma skipQueryCount_pos (s : Store) (host : String) :
    0 < skipQueryCount s host ↔
      ∃ dc ∈ s.domain_ciphers, ∃ dn ∈ s.domain_names, ∃ t ∈ s.tlds,
        dc.domain_id = dn.id ∧ dn.name_value = host ∧
        dn.tld_id = some t.id ∧ t.skip_existing = 1 := by
  unfold skipQueryCount
  rw [List.countP_pos_iff]
  constructor
  · rintro ⟨⟨⟨dc, dn⟩, t⟩, hmem, hp⟩
    rw [List.pair_mem_product] at hmem
    obtain ⟨hmm, ht⟩ := hmem
    rw [List.pair_mem_product] at hmm
    simp only [decide_eq_true_eq] at hp
    exact ⟨dc, hmm.1, dn, hmm.2, t, ht, hp⟩
  · rintro ⟨dc, hdc, dn, hdn, t, ht, h1, h2, h3, h4⟩
    refine ⟨((dc, dn), t), ?_, ?_⟩
    · rw [List.pair_mem_product]
      exact ⟨List.pair_mem_product.mpr ⟨hdc, hdn⟩, ht⟩
    · simp [h1, h2, h3, h4]

lemma run_sslscan_xml_not_installed (env : Env) (host : String) (port : Nat)
    (h : env.sslscanInstalled = false) :
    run_sslscan_xml env host port = (.exit 1, 0) := by
  simp [run_sslscan_xml, h]

lemma run_sslscan_xml_scans (env : Env) (host : String) (port : Nat)
    (h : env.sslscanInstalled = true) :
    (run_sslscan_xml env host port).2 = 1 := by
  unfold run_sslscan_xml
  rw [h]
  cases henv : env.scan host port <;> simp

lemma process_domain_skip (env : Env) (s : Store) (host : String) (port : Nat)
    (h : 0 < skipQueryCount s host) :
    process_domain env s host port =
      { outcome := .ok (), store := s, scans := 0 } := by
  unfold process_domain
  rw [if_pos h]

lemma process_domain_no_skip_not_installed (env : Env) (s : Store)
    (host : String) (port : Nat)
    (h0 : skipQueryCount s host = 0) (h : env.sslscanInstalled = false) :
    process_domain env s host port =
      { outcome := .exit 1, store := s, scans := 0 } := by
  unfold process_domain
  rw [if_neg (by omega), run_sslscan_xml_not_installed env host port h]

lemma process_domain_no_skip_scans (env : Env) (s : Store) (host : String)
    (port : Nat) (h0 : skipQueryCount s host = 0)
    (h : env.sslscanInstalled = true) :
    (process_domain env s host port).scans = 1 := by
  unfold process_domain
  rw [if_neg (by omega)]
  rcases hr : run_sslscan_xml env host port with ⟨o, n⟩
  have hn : n = 1 := by
    have := run_sslscan_xml_scans env host port h
    rw [hr] at this
    exact this
  subst hn
  cases o with
  | ok doc =>
    cases doc with
    | wellFormed r =>
      simp only [extract_accepted_ciphers]
      split <;> rfl
    | malformed => rfl
  | exn => rfl
  | exit c => rfl

lemma insertCipherRow_keeps (s : Store) (c : CipherRecord) (cid : String)
    (h : ∃ row ∈ s.ciphers, row.cipher_id = cid) :
    cipherRowsWithId (insertCipherRow s c) cid = cipherRowsWithId s cid ∧
    ∃ row ∈ (insertCipherRow s c).ciphers, row.cipher_id = cid := by
  unfold insertCipherRow
  split
  · exact ⟨rfl, h⟩
  · next hany =>
    have hne : c.cipher_id ≠ cid := by
      intro hcc
      obtain ⟨row, hrow, hrid⟩ := h
      exact hany (List.any_eq_true.mpr ⟨row, hrow, by simp [hrid, hcc]⟩)
    constructor
    · unfold cipherRowsWithId
      simp only [List.filter_append]
      have : List.filter
          (fun row => decide (CipherRow.cipher_id row = cid))
          [({ cipher_id := c.cipher_id, sslversion := c.sslversion,
              cipher_name := c.cipher_name, bits := c.bits,
              status := c.status } : CipherRow)] = [] := by
        simp [hne]
      rw [this, List.append_nil]
    · obtain ⟨row, hrow, hrid⟩ := h
      exact ⟨row, by simp [hrow], hrid⟩

/-- Claim C7: a cipher_id already present in `ciphers` keeps its row
(all of sslversion, cipher_name, bits, status) unchanged through any
later `insert_ciphers_to_db` call, even one carrying different values
for that id: insert-if-absent, never update. -/
theorem c7_ciphers_never_updated (s : Store) (recs : List CipherRecord)
    (cid : String) (h : ∃ row ∈ s.ciphers, row.cipher_id = cid) :
    cipherRowsWithId (insert_ciphers_to_db recs s) cid =
      cipherRowsWithId s cid := by
  induction recs generalizing s with
  | nil => rfl
  | cons c recs ih =>
    have h2 := insertCipherRow_keeps s c cid h
    unfold insert_ciphers_to_db
    rw [List.foldl_cons]
    exact (ih (insertCipherRow s c) h2.2).trans h2.1

/-- Concrete store for the C7 witness: one cipher row with id `c1`. -/
def storeC7 : Store :=
  { tlds := []
    domain_names := []
    ciphers := [⟨"c1", "TLSv1.2", "ECDHE-RSA-AES256-GCM-SHA384", "256", "accepted"⟩]
    domain_ciphers := []
    next_domain_id := 1
    next_dc_id := 1 }

/-- A later record with the same cipher id `c1` but different
sslversion, name, bits and status. -/
def recsC7 : List CipherRecord :=
  [{ sslversion := "TLSv1.3", cipher_name := "TLS_CHACHA20_POLY1305_SHA256",
     bits := "128", cipher_id := "c1", status := "preferred" }]

/-- Witness for C7: re-inserting `c1` with different field values
leaves the stored row exactly as it was. -/
theorem c7_ciphers_never_updated_witness :
    cipherRowsWithId (insert_ciphers_to_db recsC7 storeC7) "c1" =
      cipherRowsWithId storeC7 "c1" ∧
    cipherRowsWithId storeC7 "c1" =
      [⟨"c1", "TLSv1.2", "ECDHE-RSA-AES256-GCM-SHA384", "256", "accepted"⟩] := by
  exact ⟨c7_ciphers_never_updated storeC7 recsC7 "c1" (by decide), by decide⟩

/-- Concrete store for C1: one known host, no ciphers, no associations. -/
def storeC1 : Store :=
  { tlds := []
    domain_names := [⟨1, none, "a.example.com"⟩]
    ciphers := []
    domain_ciphers := []
    next_domain_id := 2
    next_dc_id := 1 }

/-- The cipher records of one scan of `a.example.com`. -/
def recsC1 : List CipherRecord :=
  [{ sslversion := "TLSv1.2", cipher_name := "ECDHE-RSA-AES256-GCM-SHA384",
     bits := "256", cipher_id := "c1", status := "accepted" }]

/-- The store after one upsert-and-link round for `a.example.com`. -/
def onceC1 : Store :=
  map_domain_to_ciphers "a.example.com" recsC1
    (insert_ciphers_to_db recsC1 storeC1)

/-- The store after the identical round is repeated. -/
def twiceC1 : Store :=
  map_domain_to_ciphers "a.example.com" recsC1
    (insert_ciphers_to_db recsC1 onceC1)

/-- Claim C1 is violated by the code: repeating
`insert_ciphers_to_db` + `map_domain_to_ciphers` with identical inputs
leaves TWO `domain_ciphers` rows for the pair
(`a.example.com`, `c1`) where the claim requires at most one — the
`INSERT OR IGNORE` on `domain_ciphers` has no unique constraint on
(domain_id, cipher_id) to conflict with, so the second round inserts a
duplicate association row.  The `ciphers` table itself is deduplicated
correctly, and no error is raised. -/
theorem c1_duplicate_association_rows :
    (associationRows onceC1 "a.example.com" "c1").length = 1 ∧
    (associationRows twiceC1 "a.example.com" "c1").length = 2 ∧
    twiceC1.ciphers = onceC1.ciphers := by decide

/-- Claim C3: `process_domain` skips a host entirely — no scanner
invocation, store untouched, normal return — if and only if the store
has at least one association row for the host and the host's parent
TLD row has `skip_existing` set.  The `name_value` UNIQUE constraint of
the schema is the `hostRowsUnique` hypothesis. -/
theorem c3_skip_policy_iff (env : Env) (s : Store) (host : String)
    (port : Nat) (hu : hostRowsUnique s) :
    ((process_domain env s host port).outcome = .ok () ∧
     (process_domain env s host port).scans = 0 ∧
     (process_domain env s host port).store = s) ↔
    (hasAssociation s host ∧ tldSkipSet s host) := by
  constructor
  · rintro ⟨hok, hscan, -⟩
    by_cases hpos : 0 < skipQueryCount s host
    · obtain ⟨dc, hdc, dn, hdn, t, ht, h1, h2, h3, h4⟩ :=
        (skipQueryCount_pos s host).mp hpos
      exact ⟨⟨dc, hdc, dn, hdn, h2, h1⟩, ⟨dn, hdn, h2, t, ht, h3, h4⟩⟩
    · have h0 : skipQueryCount s host = 0 := by omega
      cases hins : env.sslscanInstalled
      · rw [process_domain_no_skip_not_installed env s host port h0 hins]
          at hok
        simp at hok
      · have h1 := process_domain_no_skip_scans env s host port h0 hins
        rw [hscan] at h1
        omega
  · rintro ⟨⟨dc, hdc, dn1, hdn1, hname1, hid⟩,
      ⟨dn2, hdn2, hname2, t, ht, htld, hflag⟩⟩
    have hdn : dn1 = dn2 := hu dn1 hdn1 dn2 hdn2 (hname1.trans hname2.symm)
    subst hdn
    have hpos : 0 < skipQueryCount s host :=
      (skipQueryCount_pos s host).mpr
        ⟨dc, hdc, dn1, hdn1, t, ht, hid, hname1, htld, hflag⟩
    rw [process_domain_skip env s host port hpos]
    exact ⟨rfl, rfl, rfl⟩

/-- Concrete store for the C3 witness: host `www.example.com` under a
TLD with `skip_existing = 1` and one association row. -/
def storeC3 : Store :=
  { tlds := [⟨1, "example.com", 1⟩]
    domain_names := [⟨1, some 1, "www.example.com"⟩]
    ciphers := [⟨"c1", "TLSv1.2", "ECDHE-RSA-AES256-GCM-SHA384", "256", "accepted"⟩]
    domain_ciphers := [⟨1, 1, "c1"⟩]
    next_domain_id := 2
    next_dc_id := 2 }

/-- Environment for the C3 witness. -/
def envC3 : Env := ⟨true, fun _ _ => .failed⟩

/-- Witness for C3: the skip-eligible host is skipped without a scan
and without touching the store. -/
theorem c3_skip_policy_iff_witness :
    (process_domain envC3 storeC3 "www.example.com" 443).outcome = .ok () ∧
    (process_domain envC3 storeC3 "www.example.com" 443).scans = 0 ∧
    (process_domain envC3 storeC3 "www.example.com" 443).store = storeC3 :=
  (c3_skip_policy_iff envC3 storeC3 "www.example.com" 443
    (by unfold hostRowsUnique; decide)).mpr
    (⟨⟨⟨1, 1, "c1"⟩, by decide, ⟨1, some 1, "www.example.com"⟩, by decide,
        rfl, rfl⟩,
      ⟨⟨1, some 1, "www.example.com"⟩, by decide, rfl,
        ⟨1, "example.com", 1⟩, by decide, rfl, rfl⟩⟩)

/-- Claim C5: a host whose scan parses to an empty accepted-cipher list
finishes without error, writes nothing, and — because no association
row was recorded — is scanned again by a subsequent run even when its
TLD's `skip_existing` flag is set. -/
theorem c5_empty_scan_no_rows_rescan (env : Env) (s : Store)
    (host : String) (port : Nat) (r : Report)
    (hskip : skipQueryCount s host = 0)
    (hinst : env.sslscanInstalled = true)
    (hscan : env.scan host port = .output (.wellFormed r))
    (hempty : extract_accepted_ciphers (.wellFormed r) = .ok []) :
    process_domain env s host port =
      { outcome := .ok (), store := s, scans := 1 } ∧
    skipQueryCount (process_domain env s host port).store host = 0 ∧
    (process_domain env (process_domain env s host port).store
      host port).scans = 1 := by
  have hemp : (r.cipherElems.filterMap toAcceptedRecord) = [] := by
    simpa [extract_accepted_ciphers] using hempty
  have h1 : process_domain env s host port =
      { outcome := .ok (), store := s, scans := 1 } := by
    unfold process_domain
    rw [if_neg (by omega)]
    have hr : run_sslscan_xml env host port = (.ok (.wellFormed r), 1) := by
      simp [run_sslscan_xml, hinst, hscan]
    rw [hr]
    simp [extract_accepted_ciphers, hemp]
  refine ⟨h1, ?_, ?_⟩
  · rw [h1]
    exact hskip
  · have h2 : (process_domain env s host port).store = s := by rw [h1]
    rw [h2, h1]

/-- Report for the C5 witness: one rejected entry only. -/
def reportC5 : Report := ⟨[[("status", "rejected"), ("sslversion", "TLSv1.2")]]⟩

/-- Environment for the C5 witness: scans succeed and return the
all-rejected report. -/
def envC5 : Env := ⟨true, fun _ _ => .output (.wellFormed reportC5)⟩

/-- Store for the C5 witness: the host's TLD has `skip_existing = 1`
but the host has no association rows yet. -/
def storeC5 : Store :=
  { tlds := [⟨1, "example.com", 1⟩]
    domain_names := [⟨1, some 1, "a.example.com"⟩]
    ciphers := []
    domain_ciphers := []
    next_domain_id := 2
    next_dc_id := 1 }

/-- Witness for C5: the empty-result host writes nothing and is scanned
again on the next run even though its TLD's skip flag is set. -/
theorem c5_empty_scan_no_rows_rescan_witness :
    process_domain envC5 storeC5 "a.example.com" 443 =
      { outcome := .ok (), store := storeC5, scans := 1 } ∧
    (process_domain envC5
      (process_domain envC5 storeC5 "a.example.com" 443).store
      "a.example.com" 443).scans = 1 := by
  have h := c5_empty_scan_no_rows_rescan envC5 storeC5 "a.example.com" 443
    reportC5 (by decide) rfl rfl (by decide)
  exact ⟨h.1, h.2.2⟩


/-- The `domain_names` row that `map_domain_to_ciphers` creates for an
unknown host (`INSERT INTO domain_names (name_value) VALUES (?)`):
every other column takes its default, in particular `tld_id` NULL. -/
def newHostRow (s : Store) (host : String) : DomainRow :=
  { id := s.next_domain_id, tld_id := none, name_value := host }

/-- The store after `map_domain_to_ciphers` has created the unknown
host's row, before the association inserts. -/
def withNewHost (s : Store) (host : String) : Store :=
  { s with domain_names := s.domain_names ++ [newHostRow s host]
           next_domain_id := s.next_domain_id + 1 }

lemma foldl_insertDomainCipher_frame (recs : List CipherRecord)
    (did : Nat) : ∀ s : Store,
    (recs.foldl (insertDomainCipher did) s).domain_names = s.domain_names ∧
    (recs.foldl (insertDomainCipher did) s).tlds = s.tlds ∧
    (recs.foldl (insertDomainCipher did) s).ciphers = s.ciphers := by
  induction recs with
  | nil => intro s; exact ⟨rfl, rfl, rfl⟩
  | cons c recs ih =>
    intro s
    rw [List.foldl_cons]
    exact ih (insertDomainCipher did s c)

lemma map_domain_to_ciphers_unknown (host : String)
    (recs : List CipherRecord) (s : Store)
    (hnone : s.domain_names.find?
      (fun d => decide (d.name_value = host)) = none) :
    map_domain_to_ciphers host recs s =
      recs.foldl (insertDomainCipher s.next_domain_id)
        (withNewHost s host) := by
  unfold map_domain_to_ciphers
  rw [hnone]
  rfl

/-- Claim C10: a host row created by `map_domain_to_ciphers` itself is
created with `tld_id` NULL, so that host can never satisfy the skip
policy's TLD condition and `process_domain` scans it again on every
run, whatever associations are recorded for it. -/
theorem c10_self_created_host_rescanned (env : Env) (s : Store)
    (host : String) (recs : List CipherRecord) (port : Nat)
    (hnone : s.domain_names.find?
      (fun d => decide (d.name_value = host)) = none)
    (hinst : env.sslscanInstalled = true) :
    (map_domain_to_ciphers host recs s).domain_names =
      s.domain_names ++ [newHostRow s host] ∧
    ¬ tldSkipSet (map_domain_to_ciphers host recs s) host ∧
    skipQueryCount (map_domain_to_ciphers host recs s) host = 0 ∧
    (process_domain env (map_domain_to_ciphers host recs s)
      host port).scans = 1 := by
  have hold : ∀ d ∈ s.domain_names, d.name_value ≠ host := by
    intro d hd
    have := List.find?_eq_none.mp hnone d hd
    simpa using this
  have heq := map_domain_to_ciphers_unknown host recs s hnone
  have hframe := foldl_insertDomainCipher_frame recs s.next_domain_id
    (withNewHost s host)
  have hnames : (map_domain_to_ciphers host recs s).domain_names =
      s.domain_names ++ [newHostRow s host] := by
    rw [heq, hframe.1]
    rfl
  have hnoskip : ∀ dn ∈ (map_domain_to_ciphers host recs s).domain_names,
      dn.name_value = host → dn.tld_id = none := by
    intro dn hdn hname
    rw [hnames] at hdn
    rcases List.mem_append.mp hdn with hmem | hmem
    · exact absurd hname (hold dn hmem)
    · have hdnr : dn = newHostRow s host := by simpa using hmem
      rw [hdnr]
      rfl
  have hskip0 : skipQueryCount (map_domain_to_ciphers host recs s) host = 0 := by
    by_contra hne
    obtain ⟨dc, hdc, dn, hdn, t, ht, h1, h2, h3, h4⟩ :=
      (skipQueryCount_pos _ host).mp (Nat.pos_of_ne_zero hne)
    rw [hnoskip dn hdn h2] at h3
    cases h3
  refine ⟨hnames, ?_, hskip0, ?_⟩
  · rintro ⟨dn, hdn, hname, t, ht, htld, hflag⟩
    rw [hnoskip dn hdn hname] at htld
    cases htld
  · exact process_domain_no_skip_scans env _ host port hskip0 hinst

/-- Store for the C10 witness: the unknown host is not present;
an unrelated host sits under a TLD with the skip flag set. -/
def storeC10 : Store :=
  { tlds := [⟨1, "example.com", 1⟩]
    domain_names := [⟨1, some 1, "www.example.com"⟩]
    ciphers := []
    domain_ciphers := []
    next_domain_id := 2
    next_dc_id := 1 }

/-- Records found for the unknown host in the C10 witness. -/
def recsC10 : List CipherRecord :=
  [{ sslversion := "TLSv1.2", cipher_name := "AES128-SHA",
     bits := "128", cipher_id := "c9", status := "accepted" }]

/-- Environment for the C10 witness. -/
def envC10 : Env := ⟨true, fun _ _ => .failed⟩

/-- Witness for C10: the self-created host row has no TLD, stays
outside the skip policy, and is scanned again despite its recorded
association. -/
theorem c10_self_created_host_rescanned_witness :
    skipQueryCount
      (map_domain_to_ciphers "new.example.com" recsC10 storeC10)
      "new.example.com" = 0 ∧
    (process_domain envC10
      (map_domain_to_ciphers "new.example.com" recsC10 storeC10)
      "new.example.com" 443).scans = 1 := by
  have h := c10_self_created_host_rescanned envC10 storeC10
    "new.example.com" recsC10 443 (by decide) rfl
  exact ⟨h.2.2.1, h.2.2.2⟩

lemma wrapper_of_exn (env : Env) (s : Store) (host : String)
    (h : (process_domain env s host 443).outcome = .exn) :
    process_domain_wrapper env s host =
      .result host false (process_domain env s host 443).store
        (process_domain env s host 443).scans := by
  unfold process_domain_wrapper
  rcases hpd : process_domain env s host 443 with ⟨o, st, n⟩
  rw [hpd] at h
  simp only at h
  subst h
  rfl

lemma wrapper_of_ok (env : Env) (s : Store) (host : String)
    (h : (process_domain env s host 443).outcome = .ok ()) :
    process_domain_wrapper env s host =
      .result host true (process_domain env s host 443).store
        (process_domain env s host 443).scans := by
  unfold process_domain_wrapper
  rcases hpd : process_domain env s host 443 with ⟨o, st, n⟩
  rw [hpd] at h
  simp only at h
  subst h
  rfl

lemma wrapper_of_exit (env : Env) (s : Store) (host : String) (c : Nat)
    (h : (process_domain env s host 443).outcome = .exit c) :
    process_domain_wrapper env s host =
      .sysExit c (process_domain env s host 443).store
        (process_domain env s host 443).scans := by
  unfold process_domain_wrapper
  rcases hpd : process_domain env s host 443 with ⟨o, st, n⟩
  rw [hpd] at h
  simp only at h
  subst h
  rfl

/-- Environment for the C2 counterexample: sslscan is installed but the
subprocess exits non-zero for every host. -/
def envC2 : Env := ⟨true, fun _ _ => .failed⟩

/-- Store for the C2 counterexample: one candidate host with no
recorded associations. -/
def storeC2 : Store :=
  { tlds := []
    domain_names := [⟨1, none, "a.example.com"⟩]
    ciphers := []
    domain_ciphers := []
    next_domain_id := 2
    next_dc_id := 1 }

/-- Claim C2 is violated by the code at this input: a non-zero exit of
the scanner subprocess makes `run_sslscan_xml` call `sys.exit(1)`;
the raised `SystemExit` is not an `Exception`, so the wrapper's
`except Exception` does NOT catch it at the unit boundary — the unit
ends in a propagating `SystemExit`, not in a recorded
`(host, False)` failure. -/
theorem c2_counterexample_scanner_failure_escapes :
    process_domain_wrapper envC2 storeC2 "a.example.com" =
      .sysExit 1 storeC2 1 := by decide

/-- Claim C2 (amended): an ordinary exception inside one host's
scan/parse/persist unit (e.g. malformed scanner XML, a store error) is
caught at the unit boundary, recorded as `(host, False)`, and the run
continues over the remaining hosts unaffected; but a non-zero exit of
the scanner subprocess (like a missing scanner) raises `SystemExit`
via `sys.exit(1)`, which `except Exception` does not catch, and
terminates the whole run. -/
theorem c2_amended_ordinary_exception_contained (env : Env) (s : Store)
    (host : String) (rest : List String)
    (h : (process_domain env s host 443).outcome = .exn) :
    process_domain_wrapper env s host =
      .result host false (process_domain env s host 443).store
        (process_domain env s host 443).scans ∧
    (process_domains_loop env s (host :: rest)).exitCode =
      (process_domains_loop env (process_domain env s host 443).store
        rest).exitCode ∧
    (process_domains_loop env s (host :: rest)).outcomes =
      (host, false) ::
        (process_domains_loop env (process_domain env s host 443).store
          rest).outcomes := by
  have hw := wrapper_of_exn env s host h
  refine ⟨hw, ?_, ?_⟩ <;>
    simp only [process_domains_loop, hw]

/-- Environment for the C2 witness: every scan returns malformed XML,
so `ET.fromstring` raises an ordinary `ParseError`. -/
def envC2w : Env := ⟨true, fun _ _ => .output .malformed⟩

/-- Store for the C2 witness. -/
def storeC2w : Store :=
  { tlds := []
    domain_names := [⟨1, none, "b.example.com"⟩]
    ciphers := []
    domain_ciphers := []
    next_domain_id := 2
    next_dc_id := 1 }

/-- Witness for the amended C2 at a malformed-XML host. -/
theorem c2_amended_ordinary_exception_contained_witness :
    process_domain_wrapper envC2w storeC2w "b.example.com" =
      .result "b.example.com" false
        (process_domain envC2w storeC2w "b.example.com" 443).store
        (process_domain envC2w storeC2w "b.example.com" 443).scans ∧
    (process_domains_loop envC2w storeC2w ["b.example.com"]).exitCode =
      (process_domains_loop envC2w
        (process_domain envC2w storeC2w "b.example.com" 443).store
        []).exitCode ∧
    (process_domains_loop envC2w storeC2w ["b.example.com"]).outcomes =
      ("b.example.com", false) ::
        (process_domains_loop envC2w
          (process_domain envC2w storeC2w "b.example.com" 443).store
          []).outcomes :=
  c2_amended_ordinary_exception_contained envC2w storeC2w "b.example.com"
    [] (by decide)

/-- Environment for the C6 counterexample: sslscan IS installed, so no
environment error is possible; every scan subprocess exits non-zero. -/
def envC6 : Env := ⟨true, fun _ _ => .failed⟩

/-- Store for the C6 counterexample: one candidate host. -/
def storeC6 : Store :=
  { tlds := []
    domain_names := [⟨1, none, "a.example.com"⟩]
    ciphers := []
    domain_ciphers := []
    next_domain_id := 2
    next_dc_id := 1 }

/-- Claim C6 is violated by the code at this input: with sslscan
present, a single host's non-zero scanner exit — a per-host failure,
not the environment error — still escalates to process exit code 1
(via `sys.exit(1)` in `run_sslscan_xml`), the run aborts, and no
per-host outcome is reported. -/
theorem c6_counterexample_per_host_failure_escalates :
    process_domains envC6 storeC6 =
      { exitCode := 1, store := storeC6, scans := 1, outcomes := [] } ∧
    envC6.sslscanInstalled = true := by
  constructor
  · decide
  · rfl

lemma loop_missing_sslscan (env : Env)
    (hins : env.sslscanInstalled = false) :
    ∀ (hosts : List String) (s : Store),
      (process_domains_loop env s hosts).scans = 0 ∧
      (process_domains_loop env s hosts).store = s ∧
      ((∃ h ∈ hosts, skipQueryCount s h = 0) →
        (process_domains_loop env s hosts).exitCode = 1) := by
  intro hosts
  induction hosts with
  | nil =>
    intro s
    refine ⟨rfl, rfl, ?_⟩
    rintro ⟨h, hmem, -⟩
    cases hmem
  | cons host rest ih =>
    intro s
    by_cases hsk : 0 < skipQueryCount s host
    · have hpd := process_domain_skip env s host 443 hsk
      have hw : process_domain_wrapper env s host = .result host true s 0 := by
        unfold process_domain_wrapper
        rw [hpd]
      obtain ⟨ihs, ihst, ihe⟩ := ih s
      refine ⟨?_, ?_, ?_⟩
      · simp only [process_domains_loop, hw]
        omega
      · simp only [process_domains_loop, hw]
        exact ihst
      · rintro ⟨h, hmem, hzero⟩
        rcases List.mem_cons.mp hmem with hh | hh
        · subst hh
          omega
        · simp only [process_domains_loop, hw]
          exact ihe ⟨h, hh, hzero⟩
    · have h0 : skipQueryCount s host = 0 := by omega
      have hpd := process_domain_no_skip_not_installed env s host 443 h0 hins
      have hw : process_domain_wrapper env s host = .sysExit 1 s 0 := by
        unfold process_domain_wrapper
        rw [hpd]
      refine ⟨?_, ?_, ?_⟩ <;> simp [process_domains_loop, hw]

/-- Claim C6 (amended): when sslscan is missing, every per-host unit
calls `sys.exit(1)` before invoking the scanner, so the whole run
performs zero scanner invocations and aborts with exit code 1 as soon
as any non-skip-eligible host is processed; however the exit-1
escalation is not limited to that environment error: a non-zero
scanner exit for one host (sslscan present) equally terminates the run
with exit code 1, before any outcome is reported. -/
theorem c6_amended_missing_scanner_aborts (env env2 : Env)
    (s s2 : Store) (host : String) (rest : List String)
    (h1 : env.sslscanInstalled = false)
    (h2 : env2.sslscanInstalled = true)
    (h3 : env2.scan host 443 = .failed)
    (h4 : skipQueryCount s2 host = 0) :
    ((process_domains env s).scans = 0 ∧
     ((∃ h ∈ s.domain_names.map (fun d => d.name_value),
         skipQueryCount s h = 0) →
       (process_domains env s).exitCode = 1)) ∧
    process_domains_loop env2 s2 (host :: rest) =
      { exitCode := 1, store := s2, scans := 1, outcomes := [] } := by
  constructor
  · obtain ⟨ha, -, hc⟩ := loop_missing_sslscan env h1
      (s.domain_names.map (fun d => d.name_value)) s
    exact ⟨ha, hc⟩
  · have hr : run_sslscan_xml env2 host 443 = (.exit 1, 1) := by
      simp [run_sslscan_xml, h2, h3]
    have hpd : process_domain env2 s2 host 443 =
        { outcome := .exit 1, store := s2, scans := 1 } := by
      unfold process_domain
      rw [if_neg (by omega), hr]
    have hw : process_domain_wrapper env2 s2 host = .sysExit 1 s2 1 := by
      unfold process_domain_wrapper
      rw [hpd]
    simp only [process_domains_loop, hw]

/-- Environment for the first half of the C6 witness: sslscan absent. -/
def envC6m : Env := ⟨false, fun _ _ => .failed⟩

/-- Store for the first half of the C6 witness: one host that is not
skip-eligible. -/
def storeC6m : Store :=
  { tlds := []
    domain_names := [⟨1, none, "a.example.com"⟩]
    ciphers := []
    domain_ciphers := []
    next_domain_id := 2
    next_dc_id := 1 }

/-- Environment for the second half of the C6 witness: sslscan present,
subprocess fails. -/
def envC6w : Env := ⟨true, fun _ _ => .failed⟩

/-- Store for the second half of the C6 witness. -/
def storeC6w : Store :=
  { tlds := []
    domain_names := [⟨1, none, "b.example.com"⟩]
    ciphers := []
    domain_ciphers := []
    next_domain_id := 2
    next_dc_id := 1 }

/-- Witness for the amended C6. -/
theorem c6_amended_missing_scanner_aborts_witness :
    (process_domains envC6m storeC6m).scans = 0 ∧
    (process_domains envC6m storeC6m).exitCode = 1 ∧
    process_domains_loop envC6w storeC6w ["b.example.com"] =
      { exitCode := 1, store := storeC6w, scans := 1, outcomes := [] } := by
  have h := c6_amended_missing_scanner_aborts envC6m envC6w storeC6m
    storeC6w "b.example.com" [] rfl rfl rfl (by decide)
  exact ⟨h.1.1, h.1.2 ⟨"a.example.com", by decide, by decide⟩, h.2⟩
